import Mathlib

/-!
# Verification of the osdemo bare-metal kernel core

A shallow embedding, in Lean 4, of the core subsystems of the `osdemo`
aarch64 guest kernel:

* the shared/private IRQ handler registry and dispatch (`src/interrupts.rs`),
* the trap-entry IRQ path (`src/exceptions.rs`),
* the identity-mapped page table manager (`src/pagetable.rs`),
* secondary-core bring-up (`src/secondary_entry.rs`) and the PSCI
  calling-convention selection (`src/main.rs`).

Machine integers are modelled as `Nat` (no arithmetic in the embedded code
overflows), handlers as abstract `Nat` identities (the code stores
`&'static dyn Fn` references and only ever stores, compares and invokes
them), and Rust panics as explicit error outcomes.  Functions that in Rust
mutate `static` state are modelled by explicit state passing; a call that
panics returns the state unchanged, because in the source every `assert!`
precedes the corresponding mutation.
-/

namespace Osdemo

/-! ## IRQ handler registry (`src/interrupts.rs`)

`SHARED_IRQ_HANDLERS` is one map shared by all cores;
`PRIVATE_IRQ_HANDLERS` is a `PerCoreState`, one map per logical core
index, of which `get()` always yields the calling core's map.  Interrupt
ids (`arm_gic::IntId`) are modelled as `Nat`, handlers as `Nat`. -/

/-- A map from interrupt id to handler, modelling a `BTreeMap<IntId, IrqHandler>`. -/
def IrqMap : Type := Nat → Option Nat

/-- The combined registry state: the single shared table and the per-core
private tables (indexed by logical core index). -/
structure IrqRegistry where
  shared : IrqMap
  privTbl : Nat → IrqMap

/-- The empty registry: both `static` maps start as `BTreeMap::new()`. -/
def IrqRegistry.empty : IrqRegistry :=
  ⟨fun _ => none, fun _ _ => none⟩

/-- Models `BTreeMap::insert` on an `IrqMap`. -/
def IrqMap.insert (m : IrqMap) (intid h : Nat) : IrqMap :=
  fun i => if i = intid then some h else m i

/-- Models `BTreeMap::remove` on an `IrqMap`. -/
def IrqMap.erase (m : IrqMap) (intid : Nat) : IrqMap :=
  fun i => if i = intid then none else m i

/-- Embeds `set_shared_irq_handler(intid, handler)`, called from logical core
`core`.  The source asserts that the *calling core's* private table
(`PRIVATE_IRQ_HANDLERS.get()`) does not contain `intid`, then inserts into
the shared table, returning the previous shared entry.  The panic case is
`.error`; the state component is unchanged then, as the `assert!` precedes
the insert. -/
def set_shared_irq_handler (core intid h : Nat) (st : IrqRegistry) :
    Except String (Option Nat) × IrqRegistry :=
  if (st.privTbl core intid).isSome then
    (.error "Private IRQ handler already exists", st)
  else
    (.ok (st.shared intid), { st with shared := st.shared.insert intid h })

/-- Embeds `remove_shared_irq_handler(intid)`: removes from the shared table,
returning the previous entry.  Never panics. -/
def remove_shared_irq_handler (intid : Nat) (st : IrqRegistry) :
    Option Nat × IrqRegistry :=
  (st.shared intid, { st with shared := st.shared.erase intid })

/-- Embeds `set_private_irq_handler(intid, handler)`, called from logical core
`core`.  The source asserts that the shared table does not contain `intid`,
then inserts into the calling core's private table, returning the previous
private entry of that core. -/
def set_private_irq_handler (core intid h : Nat) (st : IrqRegistry) :
    Except String (Option Nat) × IrqRegistry :=
  if (st.shared intid).isSome then
    (.error "Private IRQ handler already exists", st)
  else
    (.ok (st.privTbl core intid),
     { st with privTbl := fun c =>
         if c = core then (st.privTbl core).insert intid h else st.privTbl c })

/-- Embeds `remove_private_irq_handler(intid)`, called from logical core `core`:
removes from the calling core's private table, returning the previous
entry.  Never panics. -/
def remove_private_irq_handler (core intid : Nat) (st : IrqRegistry) :
    Option Nat × IrqRegistry :=
  (st.privTbl core intid,
   { st with privTbl := fun c =>
       if c = core then (st.privTbl core).erase intid else st.privTbl c })

/-- Outcome of an IRQ dispatch: either some registered handler was invoked,
or the code panicked with a message. -/
inductive IrqDispatch where
  | invoked (h : Nat)
  | panicked (msg : String)
deriving DecidableEq

/-- Embeds `handle_irq()` from `src/interrupts.rs`, run on logical core `core`.
`pending` is the result of `GicV3::get_and_acknowledge_interrupt` (the GIC
is external hardware, so the acknowledged id is a parameter).  The source
panics when nothing is pending, otherwise looks up the calling core's
private table first, then the shared table, invokes the found handler, and
panics when neither table has an entry. -/
def handle_irq (core : Nat) (pending : Option Nat) (st : IrqRegistry) : IrqDispatch :=
  match pending with
  | none => .panicked "No pending interrupt"
  | some intid =>
    match st.privTbl core intid with
    | some h => .invoked h
    | none =>
      match st.shared intid with
      | some h => .invoked h
      | none => .panicked "Unexpected IRQ with no handler"

/-! ## Trap-entry IRQ path (`src/exceptions.rs`)

`src/exceptions.rs` holds its own single map `IRQ_HANDLER` with its own
`set_irq_handler` / `remove_irq_handler`, and the `irq_current` trap entry
looks up *only* that map — it does not call `interrupts::handle_irq`. -/

/-- The `static IRQ_HANDLER` table of `src/exceptions.rs` (a single
`BTreeMap<IntId, IrqHandler>`, not per-core). -/
def ExcIrqMap : Type := Nat → Option Nat

/-- Embeds `exceptions::set_irq_handler(intid, handler)`: unconditional insert into
the trap module's own table, returning the previous entry. -/
def exc_set_irq_handler (intid h : Nat) (m : ExcIrqMap) : Option Nat × ExcIrqMap :=
  (m intid, fun i => if i = intid then some h else m i)

/-- Embeds `exceptions::remove_irq_handler(intid)`: unconditional remove from the
trap module's own table, returning the previous entry. -/
def exc_remove_irq_handler (intid : Nat) (m : ExcIrqMap) : Option Nat × ExcIrqMap :=
  (m intid, fun i => if i = intid then none else m i)

/-- The `irq_current` trap entry from `src/exceptions.rs`.  `pending` is the
id acknowledged from the GIC.  The source looks the id up in the module's
own `IRQ_HANDLER` map only: it invokes the handler found there, and panics
otherwise.  It never consults `SHARED_IRQ_HANDLERS` or
`PRIVATE_IRQ_HANDLERS`. -/
def irq_current (pending : Option Nat) (m : ExcIrqMap) : IrqDispatch :=
  match pending with
  | none => .panicked "No pending interrupt"
  | some intid =>
    match m intid with
    | some h => .invoked h
    | none => .panicked "Unexpected IRQ with no handler"

/-! ## Lock-extent traces for the registry operations

Each registry operation is re-expressed as the sequence of lock/borrow
events it performs, following the Rust drop points of the source (edition
2024): a guard that is a temporary of a plain statement is dropped at the
end of that statement; the guard obtained in the scrutinee of an `if let`
lives through the success arm and is dropped at its end (before the `else`
branch). -/

/-- An observable locking/dispatch event of a registry operation. -/
inductive LockEvent where
  | acquirePrivateBorrow
  | releasePrivateBorrow
  | acquireSharedLock
  | releaseSharedLock
  | mapInsert
  | mapRemove
  | invoke (h : Nat)
  | panicEvt
deriving DecidableEq

/-- The event trace of `handle_irq()` on core `core` with `pending`
acknowledged from the GIC.  In the source, the `Ref` obtained from the
private table (resp. the `SpinMutexGuard` of the shared table) in the
`if let` scrutinee is still alive while `handler(intid)` runs in the
success arm, because the binding `handler` borrows from it; it is dropped
at the end of that arm. -/
def handle_irq_trace (core : Nat) (pending : Option Nat) (st : IrqRegistry) :
    List LockEvent :=
  match pending with
  | none => [.panicEvt]
  | some intid =>
    match st.privTbl core intid with
    | some h => [.acquirePrivateBorrow, .invoke h, .releasePrivateBorrow]
    | none =>
      [.acquirePrivateBorrow, .releasePrivateBorrow] ++
      match st.shared intid with
      | some h => [.acquireSharedLock, .invoke h, .releaseSharedLock]
      | none => [.acquireSharedLock, .releaseSharedLock, .panicEvt]

/-- The event trace of `set_shared_irq_handler`: the private borrow taken
for the `assert!` is a temporary of the assert statement (dropped at its
end), then the shared lock is taken for the single `insert`. -/
def set_shared_trace (core intid : Nat) (st : IrqRegistry) : List LockEvent :=
  if (st.privTbl core intid).isSome then
    [.acquirePrivateBorrow, .releasePrivateBorrow, .panicEvt]
  else
    [.acquirePrivateBorrow, .releasePrivateBorrow,
     .acquireSharedLock, .mapInsert, .releaseSharedLock]

/-- The event trace of `set_private_irq_handler`: the shared lock taken for
the `assert!` is dropped at the end of that statement, then the private
borrow is taken for the single `insert`. -/
def set_private_trace (_core intid : Nat) (st : IrqRegistry) : List LockEvent :=
  if (st.shared intid).isSome then
    [.acquireSharedLock, .releaseSharedLock, .panicEvt]
  else
    [.acquireSharedLock, .releaseSharedLock,
     .acquirePrivateBorrow, .mapInsert, .releasePrivateBorrow]

/-- The event trace of `remove_shared_irq_handler`: one lock around the
single `remove`. -/
def remove_shared_trace : List LockEvent :=
  [.acquireSharedLock, .mapRemove, .releaseSharedLock]

/-- The event trace of `remove_private_irq_handler`: one borrow around the
single `remove`. -/
def remove_private_trace : List LockEvent :=
  [.acquirePrivateBorrow, .mapRemove, .releasePrivateBorrow]

/-- Holds (`anyInvokeHeld tr depth = true`) iff somewhere in `tr` a handler is
invoked while at least one registry lock/borrow is held (`depth` counts the
locks already held at the start of `tr`). -/
def anyInvokeHeld : List LockEvent → Nat → Bool
  | [], _ => false
  | e :: rest, depth =>
    match e with
    | .acquirePrivateBorrow => anyInvokeHeld rest (depth + 1)
    | .acquireSharedLock => anyInvokeHeld rest (depth + 1)
    | .releasePrivateBorrow => anyInvokeHeld rest (depth - 1)
    | .releaseSharedLock => anyInvokeHeld rest (depth - 1)
    | .invoke _ => decide (0 < depth) || anyInvokeHeld rest depth
    | _ => anyInvokeHeld rest depth

/-! ## Identity-mapped page table (`src/pagetable.rs`)

`IdMap::map_range(range, flags)` computes
`pa = IdTranslation::virtual_to_physical(range.start())` — the identity —
and delegates to `aarch64_paging::Mapping::map_range(range, pa, flags, …)`.
The `aarch64_paging` crate is an external dependency, not part of `src/`,
so its mapping machinery is modelled from the spec below; the `IdMap`
layer on top of it is translated from `src/pagetable.rs`. -/

/-- Models `aarch64_paging::paging::PAGE_SIZE` (4 KiB pages). -/
def PAGE_SIZE : Nat := 4096

/-- Modelled from the spec: `MemoryRegion` is a half-open `[start, end)`
range of addresses with the invariant that both bounds are page-aligned. -/
structure MemoryRegion where
  start : Nat
  endAddr : Nat
deriving DecidableEq

/-- Modelled from the spec: the external `MemoryRegion::new(start, end)`
constructor establishes the page-alignment invariant by aligning the start
down and the end up to page boundaries (the spec's overlap example
`[0x1800, 0x2800)` presupposes exactly this). -/
def MemoryRegion.new (s e : Nat) : MemoryRegion :=
  ⟨s / PAGE_SIZE * PAGE_SIZE, (e + (PAGE_SIZE - 1)) / PAGE_SIZE * PAGE_SIZE⟩

/-- Modelled from the spec: the observable content of the hierarchical
translation structure owned by `aarch64_paging::Mapping` — for each page
index, the physical base address and attributes of its leaf descriptor, if
one is installed.  Attributes are an abstract bitset value (`Nat`). -/
def MappingState : Type := Nat → Option (Nat × Nat)

/-- The page table created by `Mapping::new`: nothing mapped. -/
def MappingState.empty : MappingState := fun _ => none

/-- The errors of `aarch64_paging::MapError` the spec mentions: a region
overlapping an existing mapping with different attributes, and frame-pool
exhaustion. -/
inductive MapError where
  | overlap
  | allocFailure
deriving DecidableEq

/-- The page indices covered by a (page-aligned) region: `p` with
`start / PAGE_SIZE ≤ p < end / PAGE_SIZE`. -/
def regionPages (r : MemoryRegion) : List Nat :=
  List.range' (r.start / PAGE_SIZE) (r.endAddr / PAGE_SIZE - r.start / PAGE_SIZE)

/-- The leaf descriptor `Mapping::map_range(range, pa, flags, …)` installs
for page `p` of `range`: physical base `pa + (p − start/PAGE)·PAGE`,
attributes `flags`. -/
def leafFor (r : MemoryRegion) (pa flags p : Nat) : Nat × Nat :=
  (pa + (p - r.start / PAGE_SIZE) * PAGE_SIZE, flags)

/-- Modelled from the spec: `map_range` "fails if the region overlaps an
existing mapping with different attributes" — true iff some page of the
region already carries a leaf descriptor different from the one about to be
installed. -/
def conflicts (st : MappingState) (r : MemoryRegion) (pa flags : Nat) : Bool :=
  (regionPages r).any fun p =>
    match st p with
    | none => false
    | some v => decide (v ≠ leafFor r pa flags p)

/-- Installs leaf descriptors with attributes `flags` for every page of
`r`, mapping the range 1:1 onto physical addresses starting at `pa`. -/
def installRange (st : MappingState) (r : MemoryRegion) (pa flags : Nat) :
    MappingState :=
  fun p =>
    if r.start / PAGE_SIZE ≤ p ∧ p < r.endAddr / PAGE_SIZE then
      some (leafFor r pa flags p)
    else st p

/-- Modelled from the spec: `aarch64_paging::Mapping::map_range(range, pa,
flags, …)` — rejects a region overlapping an existing mapping with
different attributes and leaves the table unchanged then, otherwise
installs leaf descriptors covering `range` (splitting/allocating
intermediate levels is below the observable granularity modelled here, and
the spec's other failure, frame-pool exhaustion, is not modelled). -/
def Mapping.map_range (st : MappingState) (r : MemoryRegion) (pa flags : Nat) :
    Option MapError × MappingState :=
  if conflicts st r pa flags then (some .overlap, st)
  else (none, installRange st r pa flags)

/-- Embeds `IdTranslation::virtual_to_physical(va) = PhysicalAddress(va.0)`: the
identity. -/
def IdTranslation.virtual_to_physical (va : Nat) : Nat := va

/-- Embeds `IdMap`: the page-table manager of `src/pagetable.rs` (the frame
allocator it also owns is not observable through the claims). -/
structure IdMap where
  mapping : MappingState

/-- A fresh `IdMap::new(…)`: empty mapping. -/
def IdMap.new : IdMap := ⟨MappingState.empty⟩

/-- Embeds `IdMap::map_range(range, flags)` from `src/pagetable.rs`: computes
`pa = IdTranslation::virtual_to_physical(range.start())` and delegates to
`Mapping::map_range(range, pa, flags, Constraints::empty())`. -/
def IdMap.map_range (m : IdMap) (r : MemoryRegion) (flags : Nat) :
    Option MapError × IdMap :=
  let pa := IdTranslation.virtual_to_physical r.start
  let res := Mapping.map_range m.mapping r pa flags
  (res.1, ⟨res.2⟩)

/-- The translation the installed table performs once activated: the leaf
descriptor of `a`'s page gives the physical base, to which the page offset
is added.  `none` for an unmapped address (translation fault). -/
def translateAddr (st : MappingState) (a : Nat) : Option Nat :=
  match st (a / PAGE_SIZE) with
  | none => none
  | some (base, _) => some (base + a % PAGE_SIZE)

/-- The attributes under which address `a` is mapped, if it is. -/
def translateAttrs (st : MappingState) (a : Nat) : Option Nat :=
  match st (a / PAGE_SIZE) with
  | none => none
  | some (_, attrs) => some attrs

/-! ## Secondary-core bring-up (`src/secondary_entry.rs`) and PSCI
calling-convention selection (`src/main.rs`)

`SECONDARY_STACKS` is a `BTreeMap<u64, SecondaryStack>`; each
`SecondaryStack` is a freshly boxed, fixed-size stack.  Distinct `Box`
allocations have distinct addresses, so stack identity is modelled by a
fresh-allocation counter.  No code path ever removes an entry from the
map. -/

/-- The state of `static SECONDARY_STACKS`, plus the allocator: `stackOf`
maps an MPIDR to the identity (address) of the stack boxed for it, and
`nextStack` is the next fresh allocation identity. -/
structure StackState where
  stackOf : Nat → Option Nat
  nextStack : Nat

/-- The initial state: `SpinMutex::new(BTreeMap::new())`. -/
def StackState.empty : StackState := ⟨fun _ => none, 0⟩

/-- Embeds `get_secondary_stack(mpidr)`:
`SECONDARY_STACKS.lock().entry(mpidr).or_default().ptr()` — returns the
stack already allocated for `mpidr`, or allocates a fresh one
(`SecondaryStack::default()`) and records it. -/
def get_secondary_stack (st : StackState) (mpidr : Nat) : Nat × StackState :=
  match st.stackOf mpidr with
  | some s => (s, st)
  | none =>
    (st.nextStack,
     ⟨fun m => if m = mpidr then some st.nextStack else st.stackOf m,
      st.nextStack + 1⟩)

/-- The two PSCI calling conventions (`smccc::Hvc` / `smccc::Smc`). -/
inductive CallConvention where
  | hvc
  | smc
deriving DecidableEq

/-- The observable content of one `start_core` invocation: which core was
targeted, which stack it was given, the Rust entry point and argument
written to the top of that stack, and the calling convention of the
`psci::cpu_on` call. -/
structure StartCoreCall where
  mpidr : Nat
  stack : Nat
  rustEntry : Nat
  arg : Nat
  convention : CallConvention
deriving DecidableEq

/-- Embeds `start_core(mpidr, stack, rust_entry, arg)` from
`src/secondary_entry.rs`: writes `rust_entry` and `arg` to the top of
`stack`, issues `dsb st`, and calls `psci::cpu_on::<Hvc>(…)` — the
convention is the hardcoded `Hvc` type argument at the call site. -/
def start_core (mpidr stack rustEntry arg : Nat) : StartCoreCall :=
  ⟨mpidr, stack, rustEntry, arg, .hvc⟩

/-- Embeds `start_core_with_stack(mpidr, rust_entry, arg)`: looks up or allocates
the stack for `mpidr` via `get_secondary_stack` and issues `start_core`
with it. -/
def start_core_with_stack (st : StackState) (mpidr rustEntry arg : Nat) :
    StartCoreCall × StackState :=
  let res := get_secondary_stack st mpidr
  (start_core mpidr res.1 rustEntry arg, res.2)

/-- The boot-time FDT, as far as the PSCI convention choice observes it:
the byte value of the `method` property of the `/psci` node, when both
exist. -/
structure Fdt where
  psciMethod : Option (List Nat)

/-- Embeds `smc_for_psci()` from `src/main.rs`: `true` iff the FDT has been set,
has a `/psci` node with a `method` property, and its value is the bytes of
`"smc\0"`. -/
def smc_for_psci (fdt : Option Fdt) : Bool :=
  match fdt with
  | none => false
  | some f =>
    match f.psciMethod with
    | none => false
    | some v => decide (v = [115, 109, 99, 0])

/-- The convention `power_off()` in `src/main.rs` uses:
`if smc_for_psci() { system_off::<Smc>() } else { system_off::<Hvc>() }`. -/
def power_off_convention (fdt : Option Fdt) : CallConvention :=
  if smc_for_psci fdt then .smc else .hvc

/-- The convention of every other guarded PSCI call site
(`cpu_off`, `version`, `affinity_info` in `src/apps/cpus.rs`), all of which
branch on `smc_for_psci()` exactly like `power_off`. -/
def guarded_psci_convention (fdt : Option Fdt) : CallConvention :=
  if smc_for_psci fdt then .smc else .hvc

/-! ## Concrete scenario states used by individual claims -/

/-- Shared-XOR-private, as observable by one core: no id is registered both
in the shared table and in `core`'s private table. -/
def exclusiveFor (core : Nat) (st : IrqRegistry) : Prop :=
  ∀ i : Nat, ¬((st.shared i).isSome ∧ (st.privTbl core i).isSome)

/-- Registry state after registering handler `7` for id `5` as private on
core `0`, starting from empty. -/
def privOnCore0 : IrqRegistry :=
  (set_private_irq_handler 0 5 7 IrqRegistry.empty).2

/-- Registry state after registering id `5` private on core `0` (handler
`7`) and then id `5` shared from core `1` (handler `8`): both registrations
succeed, leaving id `5` in both tables. -/
def crossCoreState : IrqRegistry :=
  (set_shared_irq_handler 1 5 8 privOnCore0).2

/-- Registry state holding only handler `7` for id `3` as private on
core `0`. -/
def privIrq3State : IrqRegistry :=
  (set_private_irq_handler 0 3 7 IrqRegistry.empty).2

/-- Registry state after `Qemu::setup_gic` has registered the console
handler (identity `4`) for the console interrupt `IntId::spi(1)`
(id `32 + 1 = 33`) via `set_shared_irq_handler`, with the trap module's own
`IRQ_HANDLER` table untouched. -/
def consoleRegistry : IrqRegistry :=
  (set_shared_irq_handler 0 33 4 IrqRegistry.empty).2

/-- The trap module's `IRQ_HANDLER` table at boot: empty. -/
def emptyExcMap : ExcIrqMap := fun _ => none

/-- An FDT whose `/psci` node has `method = "smc"` (bytes `"smc\0"`). -/
def smcFdt : Fdt := ⟨some [115, 109, 99, 0]⟩

/-- The result of the first mapping of the spec's overlap example:
`map_range([0x1000, 0x2000), attribute 1)` on a fresh `IdMap`. -/
def c2FirstMap : Option MapError × IdMap :=
  IdMap.map_range IdMap.new (MemoryRegion.new 0x1000 0x2000) 1

/-- The result of the second mapping of the spec's overlap example:
`map_range([0x1800, 0x2800), attribute 2)` on the table of `c2FirstMap`. -/
def c2SecondMap : Option MapError × IdMap :=
  IdMap.map_range c2FirstMap.2 (MemoryRegion.new 0x1800 0x2800) 2

/-! ## Helper lemmas -/

/-- Key property of the installed descriptors: when `map_range` is given
`pa = range.start` (as `IdMap::map_range` always does) the installed
translation is the identity on the range, with the requested attributes. -/
theorem installRange_identity (st : MappingState) (r : MemoryRegion) (flags a : Nat)
    (hs : r.start % PAGE_SIZE = 0) (he : r.endAddr % PAGE_SIZE = 0)
    (ha1 : r.start ≤ a) (ha2 : a < r.endAddr) :
    translateAddr (installRange st r r.start flags) a = some a ∧
    translateAttrs (installRange st r r.start flags) a = some flags := by
  have hcond : r.start / PAGE_SIZE ≤ a / PAGE_SIZE ∧
      a / PAGE_SIZE < r.endAddr / PAGE_SIZE := by
    unfold PAGE_SIZE at *
    omega
  constructor
  · simp only [translateAddr, installRange, if_pos hcond, leafFor,
      Option.some.injEq]
    unfold PAGE_SIZE at *
    omega
  · simp only [translateAttrs, installRange, if_pos hcond, leafFor]

/-! ## Claim theorems -/

/-- C1: for every region successfully mapped by
`IdMap::map_range(range, flags)` and every address `a` in that range, the
installed translation maps virtual address `a` to physical address `a`:
`map_range` passes `pa = range.start()` to the mapper, so every mapped
virtual address equals its physical address. -/
theorem idmap_map_range_identity (m m' : IdMap) (r : MemoryRegion) (flags a : Nat)
    (hs : r.start % PAGE_SIZE = 0) (he : r.endAddr % PAGE_SIZE = 0)
    (hok : IdMap.map_range m r flags = (none, m'))
    (ha1 : r.start ≤ a) (ha2 : a < r.endAddr) :
    translateAddr m'.mapping a = some a := by
  simp only [IdMap.map_range, Mapping.map_range, IdTranslation.virtual_to_physical] at hok
  split at hok
  · simp at hok
  · rw [Prod.mk.injEq] at hok
    obtain ⟨-, hok2⟩ := hok
    subst hok2
    exact (installRange_identity m.mapping r flags a hs he ha1 ha2).1

/-- C1 witness: mapping `[0x1000, 0x2000)` on a fresh table succeeds and
address `0x1234` translates to itself. -/
theorem idmap_map_range_identity_witness :
    translateAddr ((IdMap.map_range IdMap.new ⟨0x1000, 0x2000⟩ 1).2).mapping 0x1234 =
      some 0x1234 :=
  idmap_map_range_identity IdMap.new (IdMap.map_range IdMap.new ⟨0x1000, 0x2000⟩ 1).2
    ⟨0x1000, 0x2000⟩ 1 0x1234 (by decide) (by decide) rfl (by decide) (by decide)

/-- C2: mapping `[0x1000, 0x2000)` with attribute `1` on a fresh table
succeeds; then mapping `[0x1800, 0x2800)` with attribute `2` returns a
`MapError` (overlap with different attributes), the table is left
unchanged, and the first mapping remains intact: every address of
`[0x1000, 0x2000)` still translates to itself under attribute `1`. -/
theorem map_range_overlap_rejected :
    c2FirstMap.1 = none ∧
    c2SecondMap.1 = some MapError.overlap ∧
    c2SecondMap.2 = c2FirstMap.2 ∧
    ∀ a : Nat, 0x1000 ≤ a → a < 0x2000 →
      translateAddr c2SecondMap.2.mapping a = some a ∧
      translateAttrs c2SecondMap.2.mapping a = some 1 := by
  refine ⟨rfl, rfl, rfl, ?_⟩
  intro a ha1 ha2
  have hmap : c2SecondMap.2.mapping =
      installRange MappingState.empty (MemoryRegion.new 0x1000 0x2000)
        (MemoryRegion.new 0x1000 0x2000).start 1 := rfl
  rw [hmap]
  exact installRange_identity MappingState.empty (MemoryRegion.new 0x1000 0x2000) 1 a
    (by decide) (by decide) ha1 ha2

/-- C2 witness: the post-error table still translates `0x1800` (inside the
first region) to itself with attribute `1`. -/
theorem map_range_overlap_rejected_witness :
    (0x1000 ≤ 0x1800 ∧ 0x1800 < 0x2000) ∧
    translateAddr c2SecondMap.2.mapping 0x1800 = some 0x1800 :=
  ⟨⟨by decide, by decide⟩,
   (map_range_overlap_rejected.2.2.2 0x1800 (by decide) (by decide)).1⟩

/-- C3 counterexample: the global shared-XOR-private invariant is violated
at a reachable state.  Registering id `5` private on core `0` succeeds,
then registering id `5` shared from core `1` also succeeds (the assert only
inspects the calling core's private table), leaving id `5` registered in
both registries at once. -/
theorem registry_exclusivity_counterexample :
    (set_private_irq_handler 0 5 7 IrqRegistry.empty).1 = .ok none ∧
    (set_shared_irq_handler 1 5 8 privOnCore0).1 = .ok none ∧
    crossCoreState.privTbl 0 5 = some 7 ∧
    crossCoreState.shared 5 = some 8 :=
  ⟨rfl, rfl, rfl, rfl⟩

/-- C3 (amended): exclusivity is enforced relative to the calling core:
`set_shared_irq_handler` panics exactly when the calling core's private
table contains the id, `set_private_irq_handler` panics exactly when the
shared table contains the id, the panicking call changes nothing (so the
pre-existing registration in the other scope remains retrievable), and all
four registry operations, when performed from a fixed core, preserve
shared-XOR-private as observed by that core — in particular registering
id `5` private on core `0` and then attempting to register id `5` shared
from core `0` fails by panic with the private registration still present. -/
theorem registry_exclusivity_per_core (core intid h p : Nat) (st : IrqRegistry) :
    (st.privTbl core intid = some p →
      set_shared_irq_handler core intid h st =
        (.error "Private IRQ handler already exists", st)) ∧
    (st.shared intid = some p →
      set_private_irq_handler core intid h st =
        (.error "Private IRQ handler already exists", st)) ∧
    (exclusiveFor core st →
      exclusiveFor core (set_shared_irq_handler core intid h st).2) ∧
    (exclusiveFor core st →
      exclusiveFor core (set_private_irq_handler core intid h st).2) ∧
    (exclusiveFor core st →
      exclusiveFor core (remove_shared_irq_handler intid st).2) ∧
    (exclusiveFor core st →
      exclusiveFor core (remove_private_irq_handler core intid st).2) := by
  refine ⟨?_, ?_, ?_, ?_, ?_, ?_⟩
  · intro hp
    simp [set_shared_irq_handler, hp]
  · intro hp
    simp [set_private_irq_handler, hp]
  · intro hex i
    by_cases hc : (st.privTbl core intid).isSome
    · simpa [set_shared_irq_handler, hc] using hex i
    · rintro ⟨hsh, hpv⟩
      by_cases hi : i = intid
      · subst hi
        simp [set_shared_irq_handler, hc] at hpv
      · exact hex i
          ⟨by simpa [set_shared_irq_handler, hc, IrqMap.insert, hi] using hsh,
           by simpa [set_shared_irq_handler, hc] using hpv⟩
  · intro hex i
    by_cases hc : (st.shared intid).isSome
    · simpa [set_private_irq_handler, hc] using hex i
    · rintro ⟨hsh, hpv⟩
      by_cases hi : i = intid
      · subst hi
        simp [set_private_irq_handler, hc] at hsh
      · exact hex i
          ⟨by simpa [set_private_irq_handler, hc] using hsh,
           by simpa [set_private_irq_handler, hc, IrqMap.insert, hi] using hpv⟩
  · intro hex i
    rintro ⟨hsh, hpv⟩
    by_cases hi : i = intid
    · subst hi
      simp [remove_shared_irq_handler, IrqMap.erase] at hsh
    · exact hex i
        ⟨by simpa [remove_shared_irq_handler, IrqMap.erase, hi] using hsh,
         by simpa [remove_shared_irq_handler] using hpv⟩
  · intro hex i
    rintro ⟨hsh, hpv⟩
    by_cases hi : i = intid
    · subst hi
      simp [remove_private_irq_handler, IrqMap.erase] at hpv
    · exact hex i
        ⟨by simpa [remove_private_irq_handler] using hsh,
         by simpa [remove_private_irq_handler, IrqMap.erase, hi] using hpv⟩

/-- C3 witness: with handler `7` registered private for id `5` on core `0`,
registering a shared handler for id `5` from core `0` panics, and the
private registration is still present afterwards. -/
theorem registry_exclusivity_per_core_witness :
    privOnCore0.privTbl 0 5 = some 7 ∧
    set_shared_irq_handler 0 5 9 privOnCore0 =
      (.error "Private IRQ handler already exists", privOnCore0) :=
  ⟨rfl, (registry_exclusivity_per_core 0 5 9 7 privOnCore0).1 rfl⟩

/-- C4: `handle_irq` panics when no interrupt is pending; given pending id
`intid` it invokes the current core's private handler when one is
registered, otherwise the shared handler when one is registered, otherwise
panics.  Moreover, starting from any state with no shared handler for
`intid`: after registering only a private handler `h`, a pending `intid`
invokes `h`; and after removing that private registration and registering a
shared handler h', a subsequent pending `intid` invokes h'. -/
theorem handle_irq_precedence (core intid hp hs : Nat) (st : IrqRegistry) :
    handle_irq core none st = .panicked "No pending interrupt" ∧
    (st.privTbl core intid = some hp →
      handle_irq core (some intid) st = .invoked hp) ∧
    (st.privTbl core intid = none → st.shared intid = some hs →
      handle_irq core (some intid) st = .invoked hs) ∧
    (st.privTbl core intid = none → st.shared intid = none →
      handle_irq core (some intid) st = .panicked "Unexpected IRQ with no handler") ∧
    (∀ h h' : Nat, st.shared intid = none →
      handle_irq core (some intid)
          (set_private_irq_handler core intid h st).2 = .invoked h ∧
      handle_irq core (some intid)
          (set_shared_irq_handler core intid h'
            (remove_private_irq_handler core intid
              (set_private_irq_handler core intid h st).2).2).2 = .invoked h') := by
  refine ⟨rfl, ?_, ?_, ?_, ?_⟩
  · intro h1
    simp [handle_irq, h1]
  · intro h1 h2
    simp [handle_irq, h1, h2]
  · intro h1 h2
    simp [handle_irq, h1, h2]
  · intro h h' hnone
    constructor
    · simp [handle_irq, set_private_irq_handler, hnone, IrqMap.insert]
    · simp [handle_irq, set_private_irq_handler, set_shared_irq_handler,
        remove_private_irq_handler, hnone, IrqMap.insert, IrqMap.erase]

/-- C4 witness: on core `0` with only private handler `7` for pending id
`3`, `handle_irq` invokes `7`; after removing it and registering shared
handler `9` for id `3`, `handle_irq` invokes `9`. -/
theorem handle_irq_precedence_witness :
    handle_irq 0 (some 3)
        (set_private_irq_handler 0 3 7 IrqRegistry.empty).2 = .invoked 7 ∧
    handle_irq 0 (some 3)
        (set_shared_irq_handler 0 3 9
          (remove_private_irq_handler 0 3
            (set_private_irq_handler 0 3 7 IrqRegistry.empty).2).2).2 = .invoked 9 :=
  (handle_irq_precedence 0 3 0 0 IrqRegistry.empty).2.2.2.2 7 9 rfl

/-- C5: upsert semantics of the registry.  When the cross-scope assert
passes, `set_shared_irq_handler` / `set_private_irq_handler` return the
handler previously registered for the id in the same scope (`some` when
one was there, `none` otherwise) and replace it with the new one; the
remove operations return the removed handler, or `none` when no handler
was registered, and leave the id unregistered. -/
theorem irq_handler_upsert (core intid h : Nat) (st : IrqRegistry) :
    (st.privTbl core intid = none →
      (set_shared_irq_handler core intid h st).1 = .ok (st.shared intid) ∧
      ((set_shared_irq_handler core intid h st).2).shared intid = some h) ∧
    (st.shared intid = none →
      (set_private_irq_handler core intid h st).1 = .ok (st.privTbl core intid) ∧
      ((set_private_irq_handler core intid h st).2).privTbl core intid = some h) ∧
    (remove_shared_irq_handler intid st).1 = st.shared intid ∧
    ((remove_shared_irq_handler intid st).2).shared intid = none ∧
    (remove_private_irq_handler core intid st).1 = st.privTbl core intid ∧
    ((remove_private_irq_handler core intid st).2).privTbl core intid = none := by
  refine ⟨?_, ?_, rfl, ?_, rfl, ?_⟩
  · intro h1
    constructor
    · simp [set_shared_irq_handler, h1]
    · simp [set_shared_irq_handler, h1, IrqMap.insert]
  · intro h1
    constructor
    · simp [set_private_irq_handler, h1]
    · simp [set_private_irq_handler, h1, IrqMap.insert]
  · simp [remove_shared_irq_handler, IrqMap.erase]
  · simp [remove_private_irq_handler, IrqMap.erase]

/-- C5 witness: registering shared handler `9` for id `5` over an existing
shared handler `8` (id `5` free in core `1`'s private table) returns the
previous handler `8`; removing the never-registered id `6` returns
`none`. -/
theorem irq_handler_upsert_witness :
    (set_shared_irq_handler 1 5 9 crossCoreState).1 = .ok (some 8) ∧
    (remove_shared_irq_handler 6 crossCoreState).1 = none ∧
    (remove_private_irq_handler 1 6 crossCoreState).1 = none :=
  ⟨((irq_handler_upsert 1 5 9 crossCoreState).1 rfl).1,
   (irq_handler_upsert 1 6 0 crossCoreState).2.2.1,
   (irq_handler_upsert 1 6 0 crossCoreState).2.2.2.2.1⟩

/-- C6: stack allocation is idempotent per affinity id.  Two successive
`start_core_with_stack` calls for the same MPIDR use the identical stack,
the second call does not change the stack map at all, the first call
records the stack it used, and an allocation, once made, is never freed or
replaced: any later call (for any MPIDR) preserves it, and any later call
for the same MPIDR uses exactly it. -/
theorem start_core_with_stack_idempotent
    (st : StackState) (mpidr m' e1 a1 e2 a2 s : Nat) :
    (start_core_with_stack (start_core_with_stack st mpidr e1 a1).2 mpidr e2 a2).1.stack =
      (start_core_with_stack st mpidr e1 a1).1.stack ∧
    (start_core_with_stack (start_core_with_stack st mpidr e1 a1).2 mpidr e2 a2).2 =
      (start_core_with_stack st mpidr e1 a1).2 ∧
    ((start_core_with_stack st mpidr e1 a1).2).stackOf mpidr =
      some ((start_core_with_stack st mpidr e1 a1).1.stack) ∧
    (st.stackOf mpidr = some s →
      ((start_core_with_stack st m' e2 a2).2).stackOf mpidr = some s ∧
      (start_core_with_stack st mpidr e2 a2).1.stack = s) := by
  refine ⟨?_, ?_, ?_, ?_⟩
  · cases h : st.stackOf mpidr <;>
      simp [start_core_with_stack, get_secondary_stack, start_core, h]
  · cases h : st.stackOf mpidr <;>
      simp [start_core_with_stack, get_secondary_stack, start_core, h]
  · cases h : st.stackOf mpidr <;>
      simp [start_core_with_stack, get_secondary_stack, start_core, h]
  · intro hs
    constructor
    · cases h : st.stackOf m' with
      | some t => simp [start_core_with_stack, get_secondary_stack, start_core, h, hs]
      | none =>
        simp only [start_core_with_stack, get_secondary_stack, start_core, h]
        by_cases hm : mpidr = m'
        · rw [hm] at hs
          rw [hs] at h
          exact absurd h (by simp)
        · simpa [hm] using hs
    · simp [start_core_with_stack, get_secondary_stack, start_core, hs]

/-- C6 witness: from an empty stack map, two calls for MPIDR `1` use the
same stack, and the recorded allocation survives a later call for
MPIDR `2`. -/
theorem start_core_with_stack_idempotent_witness :
    (start_core_with_stack (start_core_with_stack StackState.empty 1 100 42).2 1 100 43).1.stack =
      (start_core_with_stack StackState.empty 1 100 42).1.stack ∧
    ((start_core_with_stack (start_core_with_stack StackState.empty 1 100 42).2 2 100 44).2).stackOf 1 =
      some ((start_core_with_stack StackState.empty 1 100 42).1.stack) :=
  ⟨(start_core_with_stack_idempotent StackState.empty 1 1 100 42 100 43 0).1,
   (start_core_with_stack_idempotent
      (start_core_with_stack StackState.empty 1 100 42).2 1 2 100 42 100 44 0).2.2.2
      ((start_core_with_stack_idempotent StackState.empty 1 1 100 42 100 43 0).2.2.1) |>.1⟩

/-- C7: on a platform whose hardware description selects the SMC
convention (`/psci` `method = "smc"`), `power_off` issues its PSCI call
via SMC, but `start_core` issues `CPU_ON` via hypervisor call
unconditionally — the hardcoded `Hvc` at its `psci::cpu_on` call site —
so the CPU_ON call does not use the single convention determined from the
psci method property. -/
theorem cpu_on_convention_mismatch :
    smc_for_psci (some smcFdt) = true ∧
    power_off_convention (some smcFdt) = .smc ∧
    guarded_psci_convention (some smcFdt) = .smc ∧
    (start_core_with_stack StackState.empty 1 100 42).1.convention = .hvc ∧
    CallConvention.hvc ≠ CallConvention.smc :=
  ⟨rfl, rfl, rfl, rfl, by decide⟩

/-- C8: divergence of the trap path from the handler registry.  With the
qemu console handler (identity `4`) registered for `IntId::spi(1)`
(id `33`) via `set_shared_irq_handler` and the trap module's own
`IRQ_HANDLER` table untouched, a pending id `33` is dispatched by
`handle_irq` to the registered handler, but the `irq_current` trap entry —
which consults only its own table — panics instead of delegating to the
shared/private registry. -/
theorem irq_current_bypasses_registry :
    consoleRegistry.shared 33 = some 4 ∧
    handle_irq 0 (some 33) consoleRegistry = .invoked 4 ∧
    irq_current (some 33) emptyExcMap = .panicked "Unexpected IRQ with no handler" :=
  ⟨rfl, rfl, rfl⟩

/-- C9 counterexample: the private-registry borrow is *not* released before
the found handler is invoked.  With private handler `7` registered for
id `3` on core `0`, the `handle_irq` event trace invokes the handler
strictly between acquiring and releasing the borrow taken for the lookup:
a registry lock/borrow is held across a handler invocation. -/
theorem handle_irq_lock_counterexample :
    handle_irq_trace 0 (some 3) privIrq3State =
      [.acquirePrivateBorrow, .invoke 7, .releasePrivateBorrow] ∧
    anyInvokeHeld (handle_irq_trace 0 (some 3) privIrq3State) 0 = true :=
  ⟨rfl, rfl⟩

/-- C9 (amended): the set/remove operations hold each registry lock/borrow
only around the single insert/remove (no handler is ever invoked under
them), but in `handle_irq` the lock/borrow acquired for the successful
lookup remains held while the found handler runs and is released only
after the handler returns — both in the private-table hit and in the
shared-table hit (where the private borrow has already been dropped before
the shared lock is taken). -/
theorem registry_lock_extent (core intid h : Nat) (st : IrqRegistry) :
    (st.privTbl core intid = some h →
      handle_irq_trace core (some intid) st =
        [.acquirePrivateBorrow, .invoke h, .releasePrivateBorrow]) ∧
    (st.privTbl core intid = none → st.shared intid = some h →
      handle_irq_trace core (some intid) st =
        [.acquirePrivateBorrow, .releasePrivateBorrow,
         .acquireSharedLock, .invoke h, .releaseSharedLock]) ∧
    anyInvokeHeld (set_shared_trace core intid st) 0 = false ∧
    anyInvokeHeld (set_private_trace core intid st) 0 = false ∧
    anyInvokeHeld remove_shared_trace 0 = false ∧
    anyInvokeHeld remove_private_trace 0 = false := by
  refine ⟨?_, ?_, ?_, ?_, rfl, rfl⟩
  · intro h1
    simp [handle_irq_trace, h1]
  · intro h1 h2
    simp [handle_irq_trace, h1, h2]
  · by_cases hc : (st.privTbl core intid).isSome <;>
      simp [set_shared_trace, hc, anyInvokeHeld]
  · by_cases hc : (st.shared intid).isSome <;>
      simp [set_private_trace, hc, anyInvokeHeld]

/-- C9 witness: with a shared handler `8` for id `5` (and core `1`'s
private table empty there), the shared lock is held across the handler
invocation, and the trace of a shared registration contains no handler
invocation under a lock. -/
theorem registry_lock_extent_witness :
    handle_irq_trace 1 (some 5) crossCoreState =
      [.acquirePrivateBorrow, .releasePrivateBorrow,
       .acquireSharedLock, .invoke 8, .releaseSharedLock] ∧
    anyInvokeHeld (set_shared_trace 1 5 crossCoreState) 0 = false :=
  ⟨(registry_lock_extent 1 5 8 crossCoreState).2.1 rfl rfl,
   (registry_lock_extent 1 5 8 crossCoreState).2.2.1⟩

/-- C10: the cross-scope conflict check of `set_shared_irq_handler` is
local to the calling core: it panics exactly when the calling core's own
private table contains the id and otherwise succeeds, so after registering
an id private on core `coreA`, registering the same id shared from a
different core `coreB` (whose own private table does not hold the id)
succeeds, with the private registration on `coreA` left in place. -/
theorem set_shared_checks_calling_core_only
    (core coreA coreB intid h hA hB : Nat) (st : IrqRegistry) :
    ((st.privTbl core intid).isSome →
      (set_shared_irq_handler core intid h st).1 =
        .error "Private IRQ handler already exists") ∧
    (st.privTbl core intid = none →
      (set_shared_irq_handler core intid h st).1 = .ok (st.shared intid)) ∧
    (coreA ≠ coreB → st.shared intid = none → st.privTbl coreB intid = none →
      (set_shared_irq_handler coreB intid hB
          (set_private_irq_handler coreA intid hA st).2).1 = .ok none ∧
      ((set_shared_irq_handler coreB intid hB
          (set_private_irq_handler coreA intid hA st).2).2).privTbl coreA intid =
        some hA) := by
  refine ⟨?_, ?_, ?_⟩
  · intro h1
    simp [set_shared_irq_handler, h1]
  · intro h1
    simp [set_shared_irq_handler, h1]
  · intro hAB h1 h2
    have hBA : ¬(coreB = coreA) := fun q => hAB q.symm
    constructor
    · simp [set_shared_irq_handler, set_private_irq_handler, h1, h2, hBA]
    · simp [set_shared_irq_handler, set_private_irq_handler, h1, h2, hBA,
        IrqMap.insert]

/-- C10 witness: id `5` registered private on core `0` does not block a
shared registration from core `1`: the shared call returns `.ok none` and
core `0`'s private registration is still present. -/
theorem set_shared_checks_calling_core_only_witness :
    (set_shared_irq_handler 1 5 8 privOnCore0).1 = .ok none ∧
    crossCoreState.privTbl 0 5 = some 7 := by
  have h := (set_shared_checks_calling_core_only 0 0 1 5 0 7 8 IrqRegistry.empty).2.2
    (by decide) rfl rfl
  exact ⟨h.1, h.2⟩

end Osdemo
